import Mathlib

/-!
Verification development for the analytic-geometry core of
`Mainm Visualization/Mathematical Concepts/3dGeometry/PlaneAndLines.py`.

The script's geometry is ordinary floating-point vector algebra over numpy
arrays; it is embedded here over the real numbers, keeping the source's
guard constants (`1e-6`, `1e-12`, `0.9`) and branch structure exactly.
Definitions named after the source carry the source line numbers they embed.
Definitions whose name starts with `claim_` instead transcribe the design
document's wording, to be compared against the code's behaviour.
-/

noncomputable section

/-- A 3-vector of reals, the embedding of a numpy length-3 array. -/
@[ext] structure Vec3 where
  x : ℝ
  y : ℝ
  z : ℝ

namespace Vec3

/-- Componentwise addition. -/
def add (u v : Vec3) : Vec3 := ⟨u.x + v.x, u.y + v.y, u.z + v.z⟩

/-- Componentwise subtraction. -/
def sub (u v : Vec3) : Vec3 := ⟨u.x - v.x, u.y - v.y, u.z - v.z⟩

/-- Componentwise negation. -/
def neg (u : Vec3) : Vec3 := ⟨-u.x, -u.y, -u.z⟩

/-- Scalar multiple. -/
def smul (t : ℝ) (u : Vec3) : Vec3 := ⟨t * u.x, t * u.y, t * u.z⟩

/-- `np.dot` on 3-vectors. -/
def dot (u v : Vec3) : ℝ := u.x * v.x + u.y * v.y + u.z * v.z

/-- `np.cross` on 3-vectors. -/
def cross (u v : Vec3) : Vec3 :=
  ⟨u.y * v.z - u.z * v.y, u.z * v.x - u.x * v.z, u.x * v.y - u.y * v.x⟩

/-- `np.linalg.norm` on 3-vectors: the square root of the dot square. -/
def norm (u : Vec3) : ℝ := Real.sqrt (dot u u)

/-- The zero vector. -/
def zero : Vec3 := ⟨0, 0, 0⟩

end Vec3

/-- The value of the general plane equation `a·x + b·y + c·z + d` at a point. -/
def planeEval (a b c d : ℝ) (P : Vec3) : ℝ := a * P.x + b * P.y + c * P.z + d

/-- Lines 169-176 of `make_plane_general` (also lines 580-585 of
`make_point_to_plane_distance_example`): the point on the plane chosen by
the first coefficient whose magnitude exceeds `1e-6`, with a `(0,0,0)`
fallback when every guard fails. -/
def point_on_plane (a b c d : ℝ) : Vec3 :=
  if 1e-6 < |a| then ⟨-d / a, 0, 0⟩
  else if 1e-6 < |b| then ⟨0, -d / b, 0⟩
  else if 1e-6 < |c| then ⟨0, 0, -d / c⟩
  else ⟨0, 0, 0⟩

/-- Line 180 of `make_plane_general`: `n = normal / (np.linalg.norm(normal) + 1e-12)`. -/
def unit_n (normal : Vec3) : Vec3 := Vec3.smul (1 / (normal.norm + 1e-12)) normal

/-- Line 182 (and 344, 414, 419, 494, 588): the helper axis used for the
in-plane basis, world-X when `|n.x| < 0.9` and world-Y otherwise. -/
def arbitrary_of (n : Vec3) : Vec3 := if |n.x| < 0.9 then ⟨1, 0, 0⟩ else ⟨0, 1, 0⟩

/-- Lines 183-184: `e1 = cross(n, arbitrary); e1 = e1 / (norm(e1) + 1e-12)`. -/
def e1_of (n : Vec3) : Vec3 :=
  Vec3.smul (1 / ((Vec3.cross n (arbitrary_of n)).norm + 1e-12)) (Vec3.cross n (arbitrary_of n))

/-- Line 185: `e2 = cross(n, e1)`. -/
def e2_of (n : Vec3) : Vec3 := Vec3.cross n (e1_of n)

/-- Lines 187-189: the parametric plane surface
`plane_point(u, v) = point_on_plane + u * 3 * e1 + v * 3 * e2`. -/
def plane_point (a b c d u v : ℝ) : Vec3 :=
  Vec3.add (point_on_plane a b c d)
    (Vec3.add (Vec3.smul (u * 3) (e1_of (unit_n ⟨a, b, c⟩)))
      (Vec3.smul (v * 3) (e2_of (unit_n ⟨a, b, c⟩))))

/-- Lines 331-335 of `make_plane_normal_form`: the normal after the
`norm_len == 0` guard, which substitutes `(0,0,1)`. -/
def nf_normal (l m n : ℝ) : Vec3 :=
  if Vec3.norm ⟨l, m, n⟩ = 0 then ⟨0, 0, 1⟩ else ⟨l, m, n⟩

/-- Lines 332-335: `norm_len` after the same guard, which substitutes `1.0`. -/
def nf_norm_len (l m n : ℝ) : ℝ :=
  if Vec3.norm ⟨l, m, n⟩ = 0 then 1 else Vec3.norm ⟨l, m, n⟩

/-- Line 336: `normal_unit = normal / norm_len`. -/
def normal_unit (l m n : ℝ) : Vec3 := Vec3.smul (1 / nf_norm_len l m n) (nf_normal l m n)

/-- Line 339: `p_point = normal_unit * p`. -/
def p_point (l m n p : ℝ) : Vec3 := Vec3.smul p (normal_unit l m n)

/-- `np.clip(x, lo, hi)`. -/
def clip (x lo hi : ℝ) : ℝ := max lo (min x hi)

/-- Lines 406 and 410: exact normalization `n_unit = n / np.linalg.norm(n)`. -/
def unit (v : Vec3) : Vec3 := Vec3.smul (1 / v.norm) v

/-- Lines 444-445 of `make_angle_between_planes_example`:
`theta = np.arccos(np.clip(np.dot(n1_unit, n2_unit), -1.0, 1.0))`,
as a function of the two raw plane normals. -/
def theta_between (nA nB : Vec3) : ℝ :=
  Real.arccos (clip (Vec3.dot (unit nA) (unit nB)) (-1) 1)

/-- Line 404: the first example normal `n1 = (1, 0.8, 0.2)`. -/
def n1_ex : Vec3 := ⟨1, 0.8, 0.2⟩

/-- Line 408: the second example normal `n2 = (0.2, -1.0, 0.6)`. -/
def n2_ex : Vec3 := ⟨0.2, -1, 0.6⟩

/-- Lines 515-520 of `make_line_plane_angle_example`: the line-plane
intersection with the `intersect = line_start` fallback in the
near-parallel branch. -/
def intersect_line_plane (normal plane_pt line_start v : Vec3) : Vec3 :=
  if 1e-6 < |Vec3.dot normal v| then
    Vec3.add line_start
      (Vec3.smul (-(Vec3.dot normal (Vec3.sub line_start plane_pt)) / Vec3.dot normal v) v)
  else line_start

/-- Line 491: the concept-5 plane normal `(0.2, 0.3, 1.0)`. -/
def normal_ex5 : Vec3 := ⟨0.2, 0.3, 1⟩

/-- Line 505: the concept-5 line direction `v = (1.0, 0.8, 0.6)`. -/
def v_ex5 : Vec3 := ⟨1, 0.8, 0.6⟩

/-- Line 506: the concept-5 line start `(-2.0, -1.2, -1.5)`. -/
def line_start_ex5 : Vec3 := ⟨-2, -1.2, -1.5⟩

/-- Line 605 of `make_point_to_plane_distance_example`:
`numerator = a*P[0] + b*P[1] + c*P[2] + d`. -/
def distance_numerator (a b c d : ℝ) (P : Vec3) : ℝ := a * P.x + b * P.y + c * P.z + d

/-- Line 606: `denom = a*a + b*b + c*c`. -/
def distance_denom (a b c : ℝ) : ℝ := a * a + b * b + c * c

/-- Line 628: the displayed unsigned distance `abs(numerator) / np.sqrt(denom)`. -/
def unsigned_distance (a b c d : ℝ) (P : Vec3) : ℝ :=
  |distance_numerator a b c d P| / Real.sqrt (distance_denom a b c)

/-- Line 600: the concept-6 point `P = (2.2, 1.1, 1.8)`. -/
def P_ex6 : Vec3 := ⟨2.2, 1.1, 1.8⟩

/-- The unsigned distance computed by concept 6 with the coefficients of
line 576: `a, b, c, d = 1.2, -0.6, 0.8, -1.0`. -/
def unsigned_distance_ex6 : ℝ := unsigned_distance 1.2 (-0.6) 0.8 (-1) P_ex6

/-- Transcribes the design document's `fromNormalForm` point-on-plane:
the unit normal scaled by the rescaled `p / ‖(l,m,n)‖`. -/
def claim_nf_point (l m n p : ℝ) : Vec3 :=
  Vec3.smul (p / Vec3.norm ⟨l, m, n⟩) (unit ⟨l, m, n⟩)

/-- Transcribes the design document's `intersectLinePlane`: a typed
`Parallel` outcome (here `none`) when `|normal·direction| < ε`, otherwise
the intersection point. -/
def claim_intersect (normal plane_pt line_start v : Vec3) : Option Vec3 :=
  if |Vec3.dot normal v| < 1e-6 then none
  else
    some (Vec3.add line_start
      (Vec3.smul (-(Vec3.dot normal (Vec3.sub line_start plane_pt)) / Vec3.dot normal v) v))

/-- Transcribes the design document's `fromGeneral` degeneracy contract:
a typed `DegeneratePlaneError` (here `none`) when `‖(a,b,c)‖ < ε`. -/
def claim_from_general (a b c d : ℝ) : Option Vec3 :=
  if Vec3.norm ⟨a, b, c⟩ < 1e-6 then none else some (point_on_plane a b c d)

/-- Transcribes the design document's basis tie-break: world-Y only when
`|n.x|` strictly exceeds `0.9`, world-X otherwise. -/
def claim_arbitrary (n : Vec3) : Vec3 := if 0.9 < |n.x| then ⟨0, 1, 0⟩ else ⟨1, 0, 0⟩

/-- A unit normal sitting exactly on the `0.9` tie-break boundary. -/
def n_boundary : Vec3 := ⟨0.9, 0, Real.sqrt 0.19⟩

end

/-- The manim color constants used by `VAR_COLORS` (lines 27-37). -/
inductive ColorId where
  | RED
  | BLUE
  | GREEN
  | ORANGE
  | MAROON
  | TEAL
  | PURPLE
  | GOLD
  | WHITE
  deriving DecidableEq

/-- Lines 27-37: the module-level variable-to-color table, in source order.
It is created once and never written again anywhere in the file. -/
def VAR_COLORS : List (String × ColorId) :=
  [("a", ColorId.RED), ("b", ColorId.BLUE), ("c", ColorId.GREEN), ("d", ColorId.ORANGE),
   ("l", ColorId.MAROON), ("m", ColorId.TEAL), ("n", ColorId.PURPLE), ("p", ColorId.GOLD),
   ("x0", ColorId.WHITE)]

/-- Python dict lookup `VAR_COLORS[tok]`: `some` color for a registered
token, `none` (a `KeyError` in Python) for an absent one. -/
def colorOf (tok : String) : Option ColorId :=
  (VAR_COLORS.find? (fun e => e.1 == tok)).map (fun e => e.2)

/-! ### Basic vector lemmas -/

namespace Vec3

lemma dot_self_nonneg (v : Vec3) : 0 ≤ dot v v := by
  simp only [dot]
  nlinarith [mul_self_nonneg v.x, mul_self_nonneg v.y, mul_self_nonneg v.z]

lemma norm_nonneg' (v : Vec3) : 0 ≤ norm v := Real.sqrt_nonneg _

lemma norm_sq (v : Vec3) : norm v ^ 2 = dot v v := Real.sq_sqrt (dot_self_nonneg v)

lemma dot_self_eq_zero_iff (v : Vec3) : dot v v = 0 ↔ v = zero := by
  constructor
  · intro h
    simp only [dot] at h
    have hx : v.x = 0 := mul_self_eq_zero.mp
      (le_antisymm (by nlinarith [mul_self_nonneg v.y, mul_self_nonneg v.z]) (mul_self_nonneg v.x))
    have hy : v.y = 0 := mul_self_eq_zero.mp
      (le_antisymm (by nlinarith [mul_self_nonneg v.x, mul_self_nonneg v.z]) (mul_self_nonneg v.y))
    have hz : v.z = 0 := mul_self_eq_zero.mp
      (le_antisymm (by nlinarith [mul_self_nonneg v.x, mul_self_nonneg v.y]) (mul_self_nonneg v.z))
    ext
    · simpa [zero] using hx
    · simpa [zero] using hy
    · simpa [zero] using hz
  · intro h
    subst h
    simp [dot, zero]

lemma norm_eq_zero_iff (v : Vec3) : norm v = 0 ↔ v = zero := by
  rw [norm, Real.sqrt_eq_zero (dot_self_nonneg v), dot_self_eq_zero_iff]

lemma norm_pos (v : Vec3) (h : v ≠ zero) : 0 < norm v := by
  rcases (norm_nonneg' v).lt_or_eq with h' | h'
  · exact h'
  · exact absurd ((norm_eq_zero_iff v).mp h'.symm) h

lemma norm_smul (t : ℝ) (v : Vec3) : norm (smul t v) = |t| * norm v := by
  have h : dot (smul t v) (smul t v) = t ^ 2 * dot v v := by
    simp only [dot, smul]; ring
  rw [norm, h, Real.sqrt_mul (sq_nonneg t), Real.sqrt_sq_eq_abs, norm]

lemma dot_smul_smul (s t : ℝ) (u v : Vec3) :
    dot (smul s u) (smul t v) = s * t * dot u v := by
  simp only [dot, smul]; ring

lemma dot_smul_right (n w : Vec3) (t : ℝ) : dot n (smul t w) = t * dot n w := by
  simp only [dot, smul]; ring

lemma dot_add_right (n u w : Vec3) : dot n (add u w) = dot n u + dot n w := by
  simp only [dot, add]; ring

lemma norm_neg (v : Vec3) : norm (neg v) = norm v := by
  have h : dot (neg v) (neg v) = dot v v := by simp only [dot, neg]; ring
  rw [norm, h, norm]

end Vec3

/-- The scalar triple of a vector with a cross product of a multiple of
itself vanishes, even through the regularized rescaling. -/
lemma dot_cross_smul (w X : Vec3) (s t : ℝ) :
    Vec3.dot w (Vec3.smul s (Vec3.cross (Vec3.smul t w) X)) = 0 := by
  simp only [Vec3.dot, Vec3.smul, Vec3.cross]; ring

/-- Same fact without the outer rescaling. -/
lemma dot_cross_smul' (w X : Vec3) (t : ℝ) :
    Vec3.dot w (Vec3.cross (Vec3.smul t w) X) = 0 := by
  simp only [Vec3.dot, Vec3.cross, Vec3.smul]; ring

/-- The basis vector `e1` built from the regularized unit normal is exactly
orthogonal to the raw normal. -/
lemma dot_normal_e1 (v : Vec3) : Vec3.dot v (e1_of (unit_n v)) = 0 := by
  rw [e1_of, unit_n]
  exact dot_cross_smul v _ _ _

/-- The basis vector `e2` is exactly orthogonal to the raw normal. -/
lemma dot_normal_e2 (v : Vec3) : Vec3.dot v (e2_of (unit_n v)) = 0 := by
  rw [e2_of, unit_n]
  exact dot_cross_smul' v _ _

lemma planeEval_add (a b c d : ℝ) (X Y : Vec3) :
    planeEval a b c d (Vec3.add X Y) = planeEval a b c d X + Vec3.dot ⟨a, b, c⟩ Y := by
  simp only [planeEval, Vec3.add, Vec3.dot]; ring

/-- The chosen axis-intercept point satisfies the plane equation whenever
some coefficient passes the `1e-6` guard. -/
lemma point_on_plane_eval (a b c d : ℝ) (h : 1e-6 < max (max |a| |b|) |c|) :
    planeEval a b c d (point_on_plane a b c d) = 0 := by
  rw [point_on_plane]
  by_cases ha : 1e-6 < |a|
  · have ha0 : a ≠ 0 := by
      intro h0
      rw [h0] at ha
      norm_num at ha
    rw [if_pos ha]
    simp only [planeEval]
    field_simp
    ring
  · rw [if_neg ha]
    by_cases hb : 1e-6 < |b|
    · have hb0 : b ≠ 0 := by
        intro h0
        rw [h0] at hb
        norm_num at hb
      rw [if_pos hb]
      simp only [planeEval]
      field_simp
      ring
    · have hc : 1e-6 < |c| := by
        rcases lt_max_iff.mp h with h1 | h1
        · rcases lt_max_iff.mp h1 with h2 | h2
          · exact absurd h2 ha
          · exact absurd h2 hb
        · exact h1
      have hc0 : c ≠ 0 := by
        intro h0
        rw [h0] at hc
        norm_num at hc
      rw [if_neg hb, if_pos hc]
      simp only [planeEval]
      field_simp
      ring

/-! ### Claim theorems -/

/-- C10: for every (a,b,c,d) with at least one coefficient magnitude above
the `1e-6` guard and all real (u,v), the generated surface point
`plane_point(u,v) = point_on_plane + 3u·e1 + 3v·e2` satisfies the plane
equation exactly, because `e1` and `e2` are orthogonal to `(a,b,c)` and the
chosen point lies on the plane. -/
theorem plane_surface_on_plane (a b c d u v : ℝ) (h : 1e-6 < max (max |a| |b|) |c|) :
    Vec3.dot ⟨a, b, c⟩ (e1_of (unit_n ⟨a, b, c⟩)) = 0 ∧
    Vec3.dot ⟨a, b, c⟩ (e2_of (unit_n ⟨a, b, c⟩)) = 0 ∧
    planeEval a b c d (point_on_plane a b c d) = 0 ∧
    planeEval a b c d (plane_point a b c d u v) = 0 := by
  refine ⟨dot_normal_e1 _, dot_normal_e2 _, point_on_plane_eval a b c d h, ?_⟩
  rw [plane_point, planeEval_add, Vec3.dot_add_right, Vec3.dot_smul_right, Vec3.dot_smul_right,
    dot_normal_e1, dot_normal_e2, point_on_plane_eval a b c d h]
  ring

/-- Witness for C10 at the concept-1 coefficients and (u,v) = (1,1). -/
theorem plane_surface_on_plane_witness :
    Vec3.dot ⟨2, -1, 1.2⟩ (e1_of (unit_n ⟨2, -1, 1.2⟩)) = 0 ∧
    Vec3.dot ⟨2, -1, 1.2⟩ (e2_of (unit_n ⟨2, -1, 1.2⟩)) = 0 ∧
    planeEval 2 (-1) 1.2 (-1.5) (point_on_plane 2 (-1) 1.2 (-1.5)) = 0 ∧
    planeEval 2 (-1) 1.2 (-1.5) (plane_point 2 (-1) 1.2 (-1.5) 1 1) = 0 :=
  plane_surface_on_plane 2 (-1) 1.2 (-1.5) 1 1
    (lt_of_lt_of_le (by rw [abs_of_pos] <;> norm_num) (le_max_right _ _))

/-- C4 (amended): when at least one of |a|, |b|, |c| exceeds the `1e-6`
guard, the constructor picks the first coefficient whose magnitude exceeds
the guard, returns the corresponding axis-intercept point, and that point
satisfies a·x+b·y+c·z+d = 0. (The claim's weaker hypothesis (a,b,c) ≠ 0 is
not enough: see the counterexample.) -/
theorem from_general_point (a b c d : ℝ) (h : 1e-6 < max (max |a| |b|) |c|) :
    planeEval a b c d (point_on_plane a b c d) = 0 ∧
    (1e-6 < |a| → point_on_plane a b c d = ⟨-d / a, 0, 0⟩) ∧
    (¬ 1e-6 < |a| → 1e-6 < |b| → point_on_plane a b c d = ⟨0, -d / b, 0⟩) ∧
    (¬ 1e-6 < |a| → ¬ 1e-6 < |b| → 1e-6 < |c| →
      point_on_plane a b c d = ⟨0, 0, -d / c⟩) := by
  refine ⟨point_on_plane_eval a b c d h, ?_, ?_, ?_⟩
  · intro ha
    rw [point_on_plane, if_pos ha]
  · intro ha hb
    rw [point_on_plane, if_neg ha, if_pos hb]
  · intro ha hb hc
    rw [point_on_plane, if_neg ha, if_neg hb, if_pos hc]

/-- Counterexample to C4 as stated: (a,b,c) = (1e-9, 0, 0) is nonzero, yet
every guard fails, the code returns the fallback (0,0,0), and that point
does not satisfy the plane equation (its value is 1, not 0). -/
theorem from_general_point_counterexample :
    (⟨1e-9, 0, 0⟩ : Vec3) ≠ Vec3.zero ∧
    point_on_plane 1e-9 0 0 1 = Vec3.zero ∧
    planeEval 1e-9 0 0 1 (point_on_plane 1e-9 0 0 1) = 1 := by
  have hpt : point_on_plane 1e-9 0 0 1 = Vec3.zero := by
    rw [point_on_plane]
    rw [if_neg (by rw [abs_of_pos] <;> norm_num), if_neg (by norm_num), if_neg (by norm_num)]
    rfl
  refine ⟨?_, hpt, ?_⟩
  · intro h
    have := congrArg Vec3.x h
    simp only [Vec3.zero] at this
    norm_num at this
  · rw [hpt]
    simp [planeEval, Vec3.zero]

/-- Witness for C4 at the concept-1 coefficients a=2, b=-1, c=1.2, d=-1.5:
the returned point is (0.75, 0, 0) and it satisfies the plane equation. -/
theorem from_general_point_witness :
    planeEval 2 (-1) 1.2 (-1.5) (point_on_plane 2 (-1) 1.2 (-1.5)) = 0 ∧
    point_on_plane 2 (-1) 1.2 (-1.5) = ⟨0.75, 0, 0⟩ := by
  have h := from_general_point 2 (-1) 1.2 (-1.5)
    (lt_of_lt_of_le (by rw [abs_of_pos] <;> norm_num) (le_max_right _ _))
  refine ⟨h.1, ?_⟩
  rw [h.2.1 (by rw [abs_of_pos] <;> norm_num)]
  ext <;> norm_num

/-- C9: the token-to-color mapping is a fixed pure lookup: a registered
token always yields the same single color everywhere it is consulted, each
of the nine registered tokens is mapped, and an unregistered token fails
(Python KeyError, modelled as `none`). -/
theorem colorOf_fixed :
    (∀ tok c₁ c₂, colorOf tok = some c₁ → colorOf tok = some c₂ → c₁ = c₂) ∧
    colorOf "a" = some ColorId.RED ∧ colorOf "b" = some ColorId.BLUE ∧
    colorOf "c" = some ColorId.GREEN ∧ colorOf "d" = some ColorId.ORANGE ∧
    colorOf "l" = some ColorId.MAROON ∧ colorOf "m" = some ColorId.TEAL ∧
    colorOf "n" = some ColorId.PURPLE ∧ colorOf "p" = some ColorId.GOLD ∧
    colorOf "x0" = some ColorId.WHITE ∧
    colorOf "theta" = none := by
  refine ⟨?_, rfl, rfl, rfl, rfl, rfl, rfl, rfl, rfl, rfl, rfl⟩
  intro tok c₁ c₂ h₁ h₂
  rw [h₁] at h₂
  exact Option.some.inj h₂

/-- Witness for C9: the determinism clause applied at token "a". -/
theorem colorOf_fixed_witness :
    ColorId.RED = ColorId.RED ∧ colorOf "theta" = none :=
  ⟨colorOf_fixed.1 "a" ColorId.RED ColorId.RED rfl rfl, colorOf_fixed.2.2.2.2.2.2.2.2.2.2⟩

/-- C1 (code-bug evidence): at the script's own example normals the
computed plane-plane angle exceeds π/2, and negating one normal changes
the result — the code's `arccos(clip(dot, -1, 1))` omits the absolute
value that its own comment (line 102) and the design require. -/
theorem theta_between_not_invariant :
    Real.pi / 2 < theta_between n1_ex n2_ex ∧
    theta_between n1_ex (Vec3.neg n2_ex) < Real.pi / 2 ∧
    theta_between n1_ex (Vec3.neg n2_ex) ≠ theta_between n1_ex n2_ex := by
  have h1 : Vec3.dot n1_ex n1_ex = 1.68 := by norm_num [Vec3.dot, n1_ex]
  have h2 : Vec3.dot n2_ex n2_ex = 1.4 := by norm_num [Vec3.dot, n2_ex]
  have h12 : Vec3.dot n1_ex n2_ex = -0.48 := by norm_num [Vec3.dot, n1_ex, n2_ex]
  have h12n : Vec3.dot n1_ex (Vec3.neg n2_ex) = 0.48 := by
    norm_num [Vec3.dot, Vec3.neg, n1_ex, n2_ex]
  have hn1 : 0 < Vec3.norm n1_ex := by
    rw [Vec3.norm, h1]
    exact Real.sqrt_pos.mpr (by norm_num)
  have hn2 : 0 < Vec3.norm n2_ex := by
    rw [Vec3.norm, h2]
    exact Real.sqrt_pos.mpr (by norm_num)
  have hn2' : 0 < Vec3.norm (Vec3.neg n2_ex) := by
    rw [Vec3.norm_neg]
    exact hn2
  have hd : Vec3.dot (unit n1_ex) (unit n2_ex) < 0 := by
    rw [unit, unit, Vec3.dot_smul_smul, h12]
    have hp : 0 < (1 / Vec3.norm n1_ex) * (1 / Vec3.norm n2_ex) :=
      mul_pos (one_div_pos.mpr hn1) (one_div_pos.mpr hn2)
    nlinarith
  have hdn : 0 < Vec3.dot (unit n1_ex) (unit (Vec3.neg n2_ex)) := by
    rw [unit, unit, Vec3.dot_smul_smul, h12n]
    have hp : 0 < (1 / Vec3.norm n1_ex) * (1 / Vec3.norm (Vec3.neg n2_ex)) :=
      mul_pos (one_div_pos.mpr hn1) (one_div_pos.mpr hn2')
    nlinarith
  have hclip : clip (Vec3.dot (unit n1_ex) (unit n2_ex)) (-1) 1 < 0 := by
    rw [clip]
    exact max_lt (by norm_num) (lt_of_le_of_lt (min_le_left _ _) hd)
  have hclipn : 0 < clip (Vec3.dot (unit n1_ex) (unit (Vec3.neg n2_ex))) (-1) 1 := by
    rw [clip]
    exact lt_of_lt_of_le (lt_min hdn (by norm_num)) (le_max_right _ _)
  have hbig : Real.pi / 2 < theta_between n1_ex n2_ex := by
    rw [theta_between]
    have := Real.arccos_le_pi_div_two
      (x := clip (Vec3.dot (unit n1_ex) (unit n2_ex)) (-1) 1)
    exact not_le.mp (fun hle => absurd (this.mp hle) (not_le.mpr hclip))
  have hsmall : theta_between n1_ex (Vec3.neg n2_ex) < Real.pi / 2 := by
    rw [theta_between]
    exact Real.arccos_lt_pi_div_two.mpr hclipn
  exact ⟨hbig, hsmall, ne_of_lt (lt_trans hsmall hbig)⟩

/-- The norm of the zero vector. -/
lemma norm_zero_vec : Vec3.norm ⟨0, 0, 0⟩ = 0 := by
  have h : Vec3.dot ⟨0, 0, 0⟩ ⟨0, 0, 0⟩ = 0 := by norm_num [Vec3.dot]
  rw [Vec3.norm, h, Real.sqrt_zero]

/-- The norm of the normal used in the C2 counterexample. -/
lemma norm_002 : Vec3.norm ⟨0, 0, 2⟩ = 2 := by
  have h : Vec3.dot ⟨0, 0, 2⟩ ⟨0, 0, 2⟩ = 4 := by norm_num [Vec3.dot]
  rw [Vec3.norm, h, show (4 : ℝ) = 2 ^ 2 by norm_num, Real.sqrt_sq (by norm_num : (0 : ℝ) ≤ 2)]

/-- C2 (amended): for nonzero (l,m,n) the constructor normalizes the
normal to unit length, but p is not rescaled: the returned point-on-plane
is the unit normal scaled by the original p, i.e. it lies at signed
distance p (not p/‖(l,m,n)‖) along the unit normal from the origin. -/
theorem normal_form_point (l m n p : ℝ) (h : (⟨l, m, n⟩ : Vec3) ≠ Vec3.zero) :
    nf_normal l m n = ⟨l, m, n⟩ ∧
    normal_unit l m n = Vec3.smul (1 / Vec3.norm ⟨l, m, n⟩) ⟨l, m, n⟩ ∧
    Vec3.norm (normal_unit l m n) = 1 ∧
    p_point l m n p = Vec3.smul p (normal_unit l m n) ∧
    Vec3.dot (normal_unit l m n) (p_point l m n p) = p := by
  have hN : 0 < Vec3.norm ⟨l, m, n⟩ := Vec3.norm_pos _ h
  have hne : Vec3.norm ⟨l, m, n⟩ ≠ 0 := ne_of_gt hN
  have h1 : nf_normal l m n = ⟨l, m, n⟩ := by rw [nf_normal, if_neg hne]
  have h2 : nf_norm_len l m n = Vec3.norm ⟨l, m, n⟩ := by rw [nf_norm_len, if_neg hne]
  have h3 : normal_unit l m n = Vec3.smul (1 / Vec3.norm ⟨l, m, n⟩) ⟨l, m, n⟩ := by
    rw [normal_unit, h1, h2]
  have h4 : Vec3.norm (normal_unit l m n) = 1 := by
    rw [h3, Vec3.norm_smul, abs_of_pos (one_div_pos.mpr hN)]
    field_simp
  have h5 : Vec3.dot (normal_unit l m n) (p_point l m n p) = p := by
    rw [p_point, Vec3.dot_smul_right]
    have hdot : Vec3.dot (normal_unit l m n) (normal_unit l m n) = 1 := by
      have hsq := Vec3.norm_sq (normal_unit l m n)
      rw [h4, one_pow] at hsq
      exact hsq.symm
    rw [hdot]
    ring
  exact ⟨h1, h3, h4, rfl, h5⟩

/-- Counterexample to C2 as stated: for (l,m,n,p) = (0,0,2,1) the code
places the point at distance p = 1 along the unit normal, not at the
rescaled distance p/‖(l,m,n)‖ = 1/2 the claim describes. -/
theorem normal_form_point_counterexample :
    p_point 0 0 2 1 = ⟨0, 0, 1⟩ ∧
    claim_nf_point 0 0 2 1 = ⟨0, 0, 1 / 2⟩ ∧
    p_point 0 0 2 1 ≠ claim_nf_point 0 0 2 1 := by
  have hne : Vec3.norm ⟨0, 0, 2⟩ ≠ 0 := by rw [norm_002]; norm_num
  have h1 : p_point 0 0 2 1 = ⟨0, 0, 1⟩ := by
    rw [p_point, normal_unit, nf_normal, nf_norm_len, if_neg hne, if_neg hne, norm_002]
    ext <;> simp [Vec3.smul]
  have h2 : claim_nf_point 0 0 2 1 = ⟨0, 0, 1 / 2⟩ := by
    rw [claim_nf_point, unit, norm_002]
    ext <;> norm_num [Vec3.smul]
  refine ⟨h1, h2, ?_⟩
  rw [h1, h2]
  intro hcontra
  have h3 := congrArg Vec3.z hcontra
  norm_num at h3

/-- Witness for C2 at (l,m,n,p) = (0,0,2,5). -/
theorem normal_form_point_witness :
    Vec3.norm (normal_unit 0 0 2) = 1 ∧
    Vec3.dot (normal_unit 0 0 2) (p_point 0 0 2 5) = 5 := by
  have h := normal_form_point 0 0 2 5 (by
    intro hcontra
    have h3 := congrArg Vec3.z hcontra
    simp only [Vec3.zero] at h3
    norm_num at h3)
  exact ⟨h.2.2.1, h.2.2.2.2⟩

/-- Numeric bounds for the concept-6 displayed distance 2.42/√2.44. -/
lemma unsigned_distance_ex6_bounds :
    1.548 < unsigned_distance_ex6 ∧ unsigned_distance_ex6 < 1.5495 := by
  have hval : unsigned_distance_ex6 = 2.42 / Real.sqrt 2.44 := by
    rw [unsigned_distance_ex6, unsigned_distance]
    have h1 : distance_numerator 1.2 (-0.6) 0.8 (-1) P_ex6 = 2.42 := by
      norm_num [distance_numerator, P_ex6]
    have h2 : distance_denom 1.2 (-0.6) 0.8 = 2.44 := by
      norm_num [distance_denom]
    rw [h1, h2, abs_of_pos (by norm_num : (0 : ℝ) < 2.42)]
  have hs1 : (1.562 : ℝ) < Real.sqrt 2.44 := by
    rw [Real.lt_sqrt (by norm_num)]
    norm_num
  have hs2 : Real.sqrt 2.44 < 1.5621 := by
    rw [Real.sqrt_lt' (by norm_num)]
    norm_num
  have hspos : (0 : ℝ) < Real.sqrt 2.44 := lt_trans (by norm_num) hs1
  have hkey : 2.42 / Real.sqrt 2.44 * Real.sqrt 2.44 = 2.42 :=
    div_mul_cancel₀ _ (ne_of_gt hspos)
  rw [hval]
  constructor
  · nlinarith
  · nlinarith

/-- C3 (amended): the unsigned point-to-plane distance displayed by
concept 6 for P = (2.2, 1.1, 1.8) against 1.2x - 0.6y + 0.8z - 1 = 0 is
2.42/√2.44 ≈ 1.549 (within 0.001). -/
theorem unsigned_distance_ex6_value :
    |unsigned_distance_ex6 - 1.549| < 0.001 := by
  have h := unsigned_distance_ex6_bounds
  rw [abs_lt]
  constructor
  · nlinarith [h.1]
  · nlinarith [h.2]

/-- Counterexample to C3 as stated: the displayed unsigned distance is not
approximately 0.713 — it exceeds 0.713 by more than 0.7. -/
theorem unsigned_distance_ex6_not_0713 :
    0.7 < |unsigned_distance_ex6 - 0.713| := by
  have h := unsigned_distance_ex6_bounds
  have h2 : (0.7 : ℝ) < unsigned_distance_ex6 - 0.713 := by nlinarith [h.1]
  exact lt_of_lt_of_le h2 (le_abs_self _)

/-- C5 (amended): the line-plane solver never reports a typed Parallel
outcome: when the guard fails it silently returns line.point unchanged;
when |normal·direction| > 1e-6 it returns line.point + t·direction, which
lies exactly on the plane. -/
theorem intersect_line_plane_cases (normal plane_pt line_start v : Vec3) :
    (1e-6 < |Vec3.dot normal v| →
      intersect_line_plane normal plane_pt line_start v =
        Vec3.add line_start
          (Vec3.smul (-(Vec3.dot normal (Vec3.sub line_start plane_pt)) / Vec3.dot normal v)
            v) ∧
      Vec3.dot normal
        (Vec3.sub (intersect_line_plane normal plane_pt line_start v) plane_pt) = 0) ∧
    (¬ 1e-6 < |Vec3.dot normal v| →
      intersect_line_plane normal plane_pt line_start v = line_start) := by
  constructor
  · intro h
    have hne : Vec3.dot normal v ≠ 0 := by
      intro h0
      rw [h0] at h
      norm_num at h
    have heq : intersect_line_plane normal plane_pt line_start v =
        Vec3.add line_start
          (Vec3.smul (-(Vec3.dot normal (Vec3.sub line_start plane_pt)) / Vec3.dot normal v)
            v) := by
      rw [intersect_line_plane, if_pos h]
    refine ⟨heq, ?_⟩
    rw [heq]
    have expand : ∀ t : ℝ,
        Vec3.dot normal (Vec3.sub (Vec3.add line_start (Vec3.smul t v)) plane_pt) =
          Vec3.dot normal (Vec3.sub line_start plane_pt) + t * Vec3.dot normal v := by
      intro t
      simp only [Vec3.dot, Vec3.sub, Vec3.add, Vec3.smul]
      ring
    rw [expand]
    field_simp
  · intro h
    rw [intersect_line_plane, if_neg h]

/-- Counterexample to C5 as stated: in the parallel configuration
normal = (0,0,1), direction = (1,0,0), line through (0,0,5), plane through
the origin, the claim demands a typed Parallel outcome, but the code
returns the point (0,0,5) — which does not even lie on the plane. -/
theorem intersect_line_plane_counterexample :
    claim_intersect ⟨0, 0, 1⟩ Vec3.zero ⟨0, 0, 5⟩ ⟨1, 0, 0⟩ = none ∧
    intersect_line_plane ⟨0, 0, 1⟩ Vec3.zero ⟨0, 0, 5⟩ ⟨1, 0, 0⟩ = ⟨0, 0, 5⟩ ∧
    Vec3.dot ⟨0, 0, 1⟩ (Vec3.sub (⟨0, 0, 5⟩ : Vec3) Vec3.zero) ≠ 0 := by
  have hdot : Vec3.dot (⟨0, 0, 1⟩ : Vec3) ⟨1, 0, 0⟩ = 0 := by norm_num [Vec3.dot]
  refine ⟨?_, ?_, ?_⟩
  · rw [claim_intersect, if_pos (by rw [hdot]; norm_num)]
  · rw [intersect_line_plane, if_neg (by rw [hdot]; norm_num)]
  · norm_num [Vec3.dot, Vec3.sub, Vec3.zero]

/-- Witness for C5 at the concept-5 line and plane: the denominator 1.04
passes the guard and the returned intersection lies on the plane. -/
theorem intersect_line_plane_witness :
    1e-6 < |Vec3.dot normal_ex5 v_ex5| ∧
    Vec3.dot normal_ex5
      (Vec3.sub (intersect_line_plane normal_ex5 Vec3.zero line_start_ex5 v_ex5)
        Vec3.zero) = 0 := by
  have hd : Vec3.dot normal_ex5 v_ex5 = 1.04 := by
    norm_num [Vec3.dot, normal_ex5, v_ex5]
  have h : (1e-6 : ℝ) < |Vec3.dot normal_ex5 v_ex5| := by
    rw [hd, abs_of_pos] <;> norm_num
  exact ⟨h, ((intersect_line_plane_cases normal_ex5 Vec3.zero line_start_ex5 v_ex5).1 h).2⟩

/-- C6 (amended): degenerate input does not fail. The general-form path
silently yields the all-zero frame (fallback point (0,0,0), zero normal
and basis), and the normal-form path substitutes the +Z unit normal. -/
theorem degenerate_inputs_silent (d p : ℝ) :
    unit_n ⟨0, 0, 0⟩ = Vec3.zero ∧
    point_on_plane 0 0 0 d = Vec3.zero ∧
    e1_of (unit_n ⟨0, 0, 0⟩) = Vec3.zero ∧
    e2_of (unit_n ⟨0, 0, 0⟩) = Vec3.zero ∧
    nf_normal 0 0 0 = ⟨0, 0, 1⟩ ∧
    normal_unit 0 0 0 = ⟨0, 0, 1⟩ ∧
    p_point 0 0 0 p = Vec3.smul p ⟨0, 0, 1⟩ := by
  have hun : unit_n ⟨0, 0, 0⟩ = Vec3.zero := by
    rw [unit_n]
    ext <;> simp [Vec3.smul, Vec3.zero]
  have hcross : ∀ w : Vec3, Vec3.cross Vec3.zero w = Vec3.zero := by
    intro w
    ext <;> simp [Vec3.cross, Vec3.zero]
  have he1 : e1_of Vec3.zero = Vec3.zero := by
    rw [e1_of, hcross]
    ext <;> simp [Vec3.smul, Vec3.zero]
  have he2 : e2_of Vec3.zero = Vec3.zero := by
    rw [e2_of, he1, hcross]
  have hpop : point_on_plane 0 0 0 d = Vec3.zero := by
    rw [point_on_plane, if_neg (by norm_num), if_neg (by norm_num), if_neg (by norm_num)]
    rfl
  have hnf : nf_normal 0 0 0 = ⟨0, 0, 1⟩ := by
    rw [nf_normal, if_pos norm_zero_vec]
  have hnu : normal_unit 0 0 0 = ⟨0, 0, 1⟩ := by
    rw [normal_unit, hnf, nf_norm_len, if_pos norm_zero_vec]
    ext <;> simp [Vec3.smul]
  refine ⟨hun, hpop, ?_, ?_, hnf, hnu, ?_⟩
  · rw [hun, he1]
  · rw [hun, he2]
  · rw [p_point, hnu]

/-- Counterexample to C6 as stated: at (a,b,c,d) = (0,0,0,1) the claim
demands a typed DegeneratePlaneError, but the code silently produces a
degenerate frame (zero normal, fallback point (0,0,0)) whose point does
not satisfy the plane equation. -/
theorem degenerate_general_counterexample :
    claim_from_general 0 0 0 1 = none ∧
    unit_n ⟨0, 0, 0⟩ = Vec3.zero ∧
    point_on_plane 0 0 0 1 = Vec3.zero ∧
    planeEval 0 0 0 1 (point_on_plane 0 0 0 1) = 1 := by
  have hpop : point_on_plane 0 0 0 1 = Vec3.zero := by
    rw [point_on_plane, if_neg (by norm_num), if_neg (by norm_num), if_neg (by norm_num)]
    rfl
  refine ⟨?_, ?_, hpop, ?_⟩
  · rw [claim_from_general, if_pos (by rw [norm_zero_vec]; norm_num)]
  · rw [unit_n]
    ext <;> simp [Vec3.smul, Vec3.zero]
  · rw [hpop]
    simp [planeEval, Vec3.zero]

/-- Counterexample to C8 as stated: (0.9, 0, √0.19) is a unit normal whose
x-magnitude equals — does not exceed — 0.9; the claim's rule therefore
picks world-X, but the code (testing `|n.x| < 0.9` for world-X) picks
world-Y. -/
theorem arbitrary_boundary_counterexample :
    Vec3.norm n_boundary = 1 ∧
    arbitrary_of n_boundary = ⟨0, 1, 0⟩ ∧
    claim_arbitrary n_boundary = ⟨1, 0, 0⟩ ∧
    arbitrary_of n_boundary ≠ claim_arbitrary n_boundary := by
  have hx : n_boundary.x = 0.9 := rfl
  have hnorm : Vec3.norm n_boundary = 1 := by
    have hdot : Vec3.dot n_boundary n_boundary = 1 := by
      simp only [Vec3.dot, n_boundary]
      rw [Real.mul_self_sqrt (by norm_num : (0 : ℝ) ≤ 0.19)]
      norm_num
    rw [Vec3.norm, hdot, Real.sqrt_one]
  have habs : |n_boundary.x| = 0.9 := by
    rw [hx, abs_of_pos (by norm_num : (0 : ℝ) < 0.9)]
  have ha : arbitrary_of n_boundary = ⟨0, 1, 0⟩ := by
    rw [arbitrary_of, if_neg (by rw [habs]; norm_num)]
  have hb : claim_arbitrary n_boundary = ⟨1, 0, 0⟩ := by
    rw [claim_arbitrary, if_neg (by rw [habs]; norm_num)]
  refine ⟨hnorm, ha, hb, ?_⟩
  rw [ha, hb]
  intro hcontra
  have h3 := congrArg Vec3.x hcontra
  norm_num at h3

/-- C8 (amended): the basis construction is a deterministic explicit
threshold rule whose boundary goes to world-Y: the helper vector is
world-X exactly when |n.x| < 0.9 and world-Y when 0.9 ≤ |n.x|; then e1 is
the regularized normalization of n × arbitrary and e2 = n × e1. -/
theorem arbitrary_tie_break (n : Vec3) :
    (|n.x| < 0.9 → arbitrary_of n = ⟨1, 0, 0⟩) ∧
    (0.9 ≤ |n.x| → arbitrary_of n = ⟨0, 1, 0⟩) ∧
    e1_of n = Vec3.smul (1 / ((Vec3.cross n (arbitrary_of n)).norm + 1e-12))
      (Vec3.cross n (arbitrary_of n)) ∧
    e2_of n = Vec3.cross n (e1_of n) := by
  refine ⟨?_, ?_, rfl, rfl⟩
  · intro h
    rw [arbitrary_of, if_pos h]
  · intro h
    rw [arbitrary_of, if_neg (not_lt.mpr h)]

/-- Witness for C8 at the boundary unit normal (0.9, 0, √0.19). -/
theorem arbitrary_tie_break_witness : arbitrary_of n_boundary = ⟨0, 1, 0⟩ :=
  (arbitrary_tie_break n_boundary).2.1 (by
    have hx : n_boundary.x = 0.9 := rfl
    rw [hx, abs_of_pos (by norm_num : (0 : ℝ) < 0.9)])

/-! ### Orthonormal-basis lemmas for C7 -/

/-- Lagrange identity for the cross product. -/
lemma cross_norm_sq (u v : Vec3) :
    Vec3.dot (Vec3.cross u v) (Vec3.cross u v) =
      Vec3.dot u u * Vec3.dot v v - Vec3.dot u v ^ 2 := by
  simp only [Vec3.dot, Vec3.cross]
  ring

/-- A vector is orthogonal to any cross product it enters on the left. -/
lemma Vec3.dot_cross_left (u v : Vec3) : Vec3.dot u (Vec3.cross u v) = 0 := by
  simp only [Vec3.dot, Vec3.cross]
  ring

/-- A vector is orthogonal to any cross product it enters on the right. -/
lemma Vec3.dot_cross_right (u v : Vec3) : Vec3.dot v (Vec3.cross u v) = 0 := by
  simp only [Vec3.dot, Vec3.cross]
  ring

lemma dot_n_e1 (n : Vec3) : Vec3.dot n (e1_of n) = 0 := by
  rw [e1_of, Vec3.dot_smul_right, Vec3.dot_cross_left]
  ring

lemma dot_n_e2 (n : Vec3) : Vec3.dot n (e2_of n) = 0 := by
  rw [e2_of, Vec3.dot_cross_left]

lemma dot_e1_e2 (n : Vec3) : Vec3.dot (e1_of n) (e2_of n) = 0 := by
  rw [e2_of, Vec3.dot_cross_right]

/-- The squared cross product of a near-unit normal with its helper axis
is bounded below away from zero and above by one. -/
lemma cross_arb_bounds (n : Vec3) (h1 : 1 - 1e-9 ≤ n.norm) (h2 : n.norm ≤ 1) :
    0.18 ≤ Vec3.dot (Vec3.cross n (arbitrary_of n)) (Vec3.cross n (arbitrary_of n)) ∧
    Vec3.dot (Vec3.cross n (arbitrary_of n)) (Vec3.cross n (arbitrary_of n)) ≤ 1 := by
  have hnn1 : (1 - 1e-9) ^ 2 ≤ Vec3.dot n n := by
    rw [← Vec3.norm_sq]
    exact pow_le_pow_left₀ (by norm_num) h1 2
  have hnn2 : Vec3.dot n n ≤ 1 := by
    rw [← Vec3.norm_sq]
    nlinarith [Vec3.norm_nonneg' n]
  rw [arbitrary_of]
  by_cases hx : |n.x| < 0.9
  · rw [if_pos hx]
    have hc : Vec3.dot (Vec3.cross n ⟨1, 0, 0⟩) (Vec3.cross n ⟨1, 0, 0⟩) =
        Vec3.dot n n - n.x * n.x := by
      simp only [Vec3.dot, Vec3.cross]
      ring
    rw [hc]
    have hx2 : n.x * n.x < 0.81 := by
      nlinarith [abs_nonneg n.x, abs_mul_abs_self n.x]
    constructor
    · nlinarith
    · nlinarith [mul_self_nonneg n.x]
  · rw [if_neg hx]
    push_neg at hx
    have hc : Vec3.dot (Vec3.cross n ⟨0, 1, 0⟩) (Vec3.cross n ⟨0, 1, 0⟩) =
        n.x * n.x + n.z * n.z := by
      simp only [Vec3.dot, Vec3.cross]
      ring
    rw [hc]
    have hx2 : 0.81 ≤ n.x * n.x := by
      nlinarith [abs_nonneg n.x, abs_mul_abs_self n.x]
    constructor
    · nlinarith [mul_self_nonneg n.z]
    · have hle : n.x * n.x + n.z * n.z ≤ Vec3.dot n n := by
        simp only [Vec3.dot]
        nlinarith [mul_self_nonneg n.y]
      linarith

/-- Norm bounds from squared-dot bounds. -/
lemma norm_bounds_of_dot (w : Vec3) (lo : ℝ) (hlo : 0 ≤ lo)
    (h1 : lo ^ 2 ≤ Vec3.dot w w) (h2 : Vec3.dot w w ≤ 1) :
    lo ≤ w.norm ∧ w.norm ≤ 1 := by
  constructor
  · rw [Vec3.norm]
    exact (Real.le_sqrt hlo (Vec3.dot_self_nonneg w)).mpr h1
  · rw [Vec3.norm]
    calc Real.sqrt (Vec3.dot w w) ≤ Real.sqrt 1 := Real.sqrt_le_sqrt h2
    _ = 1 := Real.sqrt_one

/-- The regularized basis vector e1 is unit to within 1e-8. -/
lemma e1_norm_bounds (n : Vec3) (h1 : 1 - 1e-9 ≤ n.norm) (h2 : n.norm ≤ 1) :
    1 - 1e-8 ≤ (e1_of n).norm ∧ (e1_of n).norm ≤ 1 := by
  obtain ⟨hd1, hd2⟩ := cross_arb_bounds n h1 h2
  set w := Vec3.cross n (arbitrary_of n) with hw
  have hL : 0.42 ≤ w.norm ∧ w.norm ≤ 1 :=
    norm_bounds_of_dot w 0.42 (by norm_num) (by nlinarith) hd2
  have hLpos : (0 : ℝ) < w.norm + 1e-12 := by nlinarith [hL.1]
  have hnorm : (e1_of n).norm = w.norm / (w.norm + 1e-12) := by
    rw [e1_of, ← hw, Vec3.norm_smul, abs_of_pos (one_div_pos.mpr hLpos)]
    ring
  rw [hnorm]
  constructor
  · rw [le_div_iff₀ hLpos]
    nlinarith [hL.1]
  · rw [div_le_one hLpos]
    nlinarith

/-- The basis vector e2 is unit to within 1e-7. -/
lemma e2_norm_bounds (n : Vec3) (h1 : 1 - 1e-9 ≤ n.norm) (h2 : n.norm ≤ 1) :
    1 - 1e-7 ≤ (e2_of n).norm ∧ (e2_of n).norm ≤ 1 := by
  have he1 := e1_norm_bounds n h1 h2
  have hsq : Vec3.dot (e2_of n) (e2_of n) =
      Vec3.dot n n * Vec3.dot (e1_of n) (e1_of n) := by
    rw [e2_of, cross_norm_sq, dot_n_e1]
    ring
  have hnorm : (e2_of n).norm = n.norm * (e1_of n).norm := by
    rw [Vec3.norm, hsq, Real.sqrt_mul (Vec3.dot_self_nonneg n), ← Vec3.norm, ← Vec3.norm]
  rw [hnorm]
  constructor
  · nlinarith [he1.1, he1.2, Vec3.norm_nonneg' n, Vec3.norm_nonneg' (e1_of n)]
  · nlinarith [he1.2, Vec3.norm_nonneg' n, Vec3.norm_nonneg' (e1_of n)]

/-- C7: for every near-unit normal — as produced by both normalization
paths of the script's constructors — the derived triple (e1, e2, n) is
exactly pairwise orthogonal, each vector is unit to within 1e-7 (the
regularizing 1e-12 denominators preclude exact unit length, matching the
design's numeric-tolerance reading), and the triple is right-handed with
e2 = n × e1. -/
theorem basis_orthonormal (n : Vec3) (h1 : 1 - 1e-9 ≤ n.norm) (h2 : n.norm ≤ 1) :
    Vec3.dot n (e1_of n) = 0 ∧
    Vec3.dot n (e2_of n) = 0 ∧
    Vec3.dot (e1_of n) (e2_of n) = 0 ∧
    1 - 1e-7 ≤ n.norm ∧ n.norm ≤ 1 ∧
    1 - 1e-7 ≤ (e1_of n).norm ∧ (e1_of n).norm ≤ 1 ∧
    1 - 1e-7 ≤ (e2_of n).norm ∧ (e2_of n).norm ≤ 1 ∧
    e2_of n = Vec3.cross n (e1_of n) ∧
    0 < Vec3.dot (Vec3.cross (e1_of n) (e2_of n)) n := by
  have he1 := e1_norm_bounds n h1 h2
  have he2 := e2_norm_bounds n h1 h2
  have hdet : 0 < Vec3.dot (Vec3.cross (e1_of n) (e2_of n)) n := by
    have hid : Vec3.dot (Vec3.cross (e1_of n) (e2_of n)) n =
        Vec3.dot (e1_of n) (e1_of n) * Vec3.dot n n - Vec3.dot n (e1_of n) ^ 2 := by
      rw [e2_of]
      simp only [Vec3.dot, Vec3.cross]
      ring
    rw [hid, dot_n_e1]
    have hp1 : (1 - 1e-8) ^ 2 ≤ Vec3.dot (e1_of n) (e1_of n) := by
      rw [← Vec3.norm_sq]
      exact pow_le_pow_left₀ (by norm_num) he1.1 2
    have hp2 : (1 - 1e-9) ^ 2 ≤ Vec3.dot n n := by
      rw [← Vec3.norm_sq]
      exact pow_le_pow_left₀ (by norm_num) h1 2
    nlinarith
  exact ⟨dot_n_e1 n, dot_n_e2 n, dot_e1_e2 n, by linarith, h2,
    by linarith [he1.1], he1.2, he2.1, he2.2, rfl, hdet⟩

/-- The regularized normalization of line 180 is unit to within 1e-9 for
any raw normal of norm at least 1e-3 — in particular for every normal the
script actually constructs. -/
lemma unit_n_norm_bounds (v : Vec3) (h : 1e-3 ≤ v.norm) :
    1 - 1e-9 ≤ (unit_n v).norm ∧ (unit_n v).norm ≤ 1 := by
  have hpos : (0 : ℝ) < v.norm + 1e-12 := by nlinarith
  have hnorm : (unit_n v).norm = v.norm / (v.norm + 1e-12) := by
    rw [unit_n, Vec3.norm_smul, abs_of_pos (one_div_pos.mpr hpos)]
    ring
  rw [hnorm]
  constructor
  · rw [le_div_iff₀ hpos]
    nlinarith
  · rw [div_le_one hpos]
    nlinarith

/-- The norm of the +Z unit vector. -/
lemma norm_001 : Vec3.norm ⟨0, 0, 1⟩ = 1 := by
  have h : Vec3.dot ⟨0, 0, 1⟩ ⟨0, 0, 1⟩ = 1 := by norm_num [Vec3.dot]
  rw [Vec3.norm, h, Real.sqrt_one]

/-- Witness for C7 at the unit normal (0,0,1). -/
theorem basis_orthonormal_witness :
    Vec3.dot ⟨0, 0, 1⟩ (e1_of ⟨0, 0, 1⟩) = 0 ∧
    Vec3.dot ⟨0, 0, 1⟩ (e2_of ⟨0, 0, 1⟩) = 0 ∧
    Vec3.dot (e1_of ⟨0, 0, 1⟩) (e2_of ⟨0, 0, 1⟩) = 0 ∧
    1 - 1e-7 ≤ Vec3.norm ⟨0, 0, 1⟩ ∧ Vec3.norm ⟨0, 0, 1⟩ ≤ 1 ∧
    1 - 1e-7 ≤ (e1_of ⟨0, 0, 1⟩).norm ∧ (e1_of ⟨0, 0, 1⟩).norm ≤ 1 ∧
    1 - 1e-7 ≤ (e2_of ⟨0, 0, 1⟩).norm ∧ (e2_of ⟨0, 0, 1⟩).norm ≤ 1 ∧
    e2_of ⟨0, 0, 1⟩ = Vec3.cross ⟨0, 0, 1⟩ (e1_of ⟨0, 0, 1⟩) ∧
    0 < Vec3.dot (Vec3.cross (e1_of ⟨0, 0, 1⟩) (e2_of ⟨0, 0, 1⟩)) ⟨0, 0, 1⟩ :=
  basis_orthonormal ⟨0, 0, 1⟩ (by rw [norm_001]; norm_num) (by rw [norm_001])
